import Mathlib

/-!
Verification development for the `actual-flow` transaction reconciliation core
(`src/duplicate-detector.ts`): a shallow embedding of the `TransactionMapper`
and `DuplicateTransactionDetector` classes, followed by theorems about them.

Modelling conventions:
* TypeScript strings are Lean `String`s; optional fields (`?:` / possibly
  `undefined`) are `Option`s.  JavaScript truthiness of an optional string
  (`if (x)`) means: `undefined` and `""` are falsy.
* `ActualBudgetTransaction.amount` is an integer number of minor units (`ℤ`);
  `LunchFlowTransaction.amount` (a JS decimal number of currency units) is a
  rational `ℚ`.  `Math.round(x)` and `parseInt(x.toFixed(0))` both round to
  the nearest integer with ties toward plus infinity (ES `toFixed` picks the
  larger candidate on a tie), embedded as `⌊x + 1/2⌋` on `ℚ`.
* JS `Map` insertion/overwrite/iteration-order semantics are embedded as
  association lists updated by `upsert` (overwriting keeps the entry's
  original position, as a JS `Map` does) and read by `mapGet` or in-order
  scans.
* String prefix tests (`String.prototype.startsWith`) are embedded at the
  character-list level with `List.isPrefixOf`.
-/

namespace ActualFlow

/-- `LunchFlowTransaction` (field shape taken from its uses in the source;
its `types.ts` declaration file is not under `src/`).  `id` is optional:
per the spec it is absent or unstable while the transaction is provisional. -/
structure LunchFlowTransaction where
  id : Option String := none
  accountId : String
  date : String
  amount : ℚ
  merchant : String
  description : String := ""
  isPending : Option Bool := none
deriving Repr, DecidableEq

/-- `ActualBudgetTransaction` (field shape taken from its uses in the source;
its `types.ts` declaration file is not under `src/`).  The mapper never sets
`id`; ledger-persisted records carry a ledger-assigned one. -/
structure ActualBudgetTransaction where
  id : Option String := none
  date : String
  amount : ℤ
  payee_name : Option String := none
  imported_payee : Option String := none
  account : String
  cleared : Bool := true
  notes : Option String := none
  imported_id : Option String := none
  isPending : Option Bool := none
  isDuplicate : Option Bool := none
  duplicateOf : Option String := none
  shouldReplace : Option Bool := none
deriving Repr, DecidableEq

/-- `AccountMapping` pairs a Lunch Flow account with an Actual Budget account. -/
structure AccountMapping where
  lunchFlowAccountId : String
  actualBudgetAccountId : String
deriving Repr, DecidableEq

/-- JS truthiness of an optional string: `undefined` and `""` are falsy,
every other string is truthy. -/
def jsTruthy : Option String → Option String
  | none => none
  | some s => if s = "" then none else some s

/-- JS string interpolation of an optional value: `undefined` prints as
the literal text `undefined` inside a template literal. -/
def jsInterp : Option String → String
  | none => "undefined"
  | some s => s

/-- Rounding to the nearest integer with ties toward plus infinity: the
behaviour of both `Math.round(x)` and `parseInt(x.toFixed(0))` on exact
decimal inputs. -/
def jsRound (q : ℚ) : ℤ := ⌊q + 1/2⌋

/-- Boolean prefix test on strings, at the character-list level
(`String.prototype.startsWith`). -/
def hasStrPrefix (p s : String) : Bool := p.data.isPrefixOf s.data

/-- ASCII lower-casing of one character (`String.prototype.toLowerCase`
restricted to the ASCII range `A`..`Z`, i.e. code points 65..90). -/
def charToLower (c : Char) : Char :=
  if 65 ≤ c.toNat ∧ c.toNat ≤ 90 then Char.ofNat (c.toNat + 32) else c

/-- Characters kept by the `[^a-z0-9]` strip: lower-case ASCII letters
(97..122) and digits (48..57). -/
def isSlugChar (c : Char) : Bool :=
  (97 ≤ c.toNat && c.toNat ≤ 122) || (48 ≤ c.toNat && c.toNat ≤ 57)

/-- The merchant slug of `TransactionMapper.generateSyntheticId`:
`merchant.toLowerCase().replace(/[^a-z0-9]/g, '').substring(0, 20)`. -/
def merchantSlug (m : String) : String :=
  ⟨((m.data.map charToLower).filter isSlugChar).take 20⟩

/-- `TransactionMapper.generateSyntheticId`: the deterministic synthetic id
for pending transactions,
`lf_pending_{accountId}_{date}_{amountCents}_{merchantSlug}`. -/
def generateSyntheticId (t : LunchFlowTransaction) : String :=
  "lf_pending_" ++ t.accountId ++ "_" ++ t.date ++ "_" ++
    toString (jsRound (t.amount * 100)) ++ "_" ++ merchantSlug t.merchant

/-- `this.accountMappings.find(m => m.lunchFlowAccountId === lfTransaction.accountId)`. -/
def findMapping (mappings : List AccountMapping) (accId : String) : Option AccountMapping :=
  mappings.find? fun m => m.lunchFlowAccountId == accId

/-- `TransactionMapper.mapTransaction`: returns `null` (here `none`) when the
account has no mapping, otherwise the mapped Actual Budget record.  The
`amount` field is `parseInt((amount * 100).toFixed(0))`, embedded by the same
`jsRound` as `Math.round` (the two JS roundings agree on exact decimals). -/
def mapTransaction (mappings : List AccountMapping) (t : LunchFlowTransaction) :
    Option ActualBudgetTransaction :=
  match findMapping mappings t.accountId with
  | none => none
  | some mapping =>
    let isPending : Bool := t.isPending == some true
    some
      { id := none
        date := t.date
        amount := jsRound (t.amount * 100)
        payee_name := some t.merchant
        imported_payee := some t.merchant
        account := mapping.actualBudgetAccountId
        cleared := !isPending
        notes := some (if isPending then "[PENDING] " ++ t.description else t.description)
        imported_id := some (if isPending then generateSyntheticId t else "lf_" ++ jsInterp t.id)
        isPending := some isPending
        isDuplicate := none
        duplicateOf := none
        shouldReplace := none }

/-- The `console.warn` side effect of `mapTransaction`, made explicit as a
writer value: the result together with the list of warning messages emitted. -/
def mapTransactionLogged (mappings : List AccountMapping) (t : LunchFlowTransaction) :
    Option ActualBudgetTransaction × List String :=
  match findMapping mappings t.accountId with
  | none => (none, ["No mapping found for Lunch Flow account " ++ t.accountId])
  | some _ => (mapTransaction mappings t, [])

/-- `TransactionMapper.mapTransactions`: map every element and keep the
non-`null` results. -/
def mapTransactions (mappings : List AccountMapping) (ts : List LunchFlowTransaction) :
    List ActualBudgetTransaction :=
  (ts.map (mapTransaction mappings)).reduceOption

/-- JS `Map.prototype.set` on an association list: overwriting an existing key
keeps the entry's original position in iteration order; a new key is appended. -/
def upsert (k : String) (v : ActualBudgetTransaction) :
    List (String × ActualBudgetTransaction) → List (String × ActualBudgetTransaction)
  | [] => [(k, v)]
  | p :: rest => if p.1 == k then (k, v) :: rest else p :: upsert k v rest

/-- JS `Map.prototype.get` on an association list. -/
def mapGet (l : List (String × ActualBudgetTransaction)) (k : String) :
    Option ActualBudgetTransaction :=
  (l.find? fun p => p.1 == k).map Prod.snd

/-- The two indexes held by `DuplicateTransactionDetector`. -/
structure DuplicateTransactionDetector where
  existingTransactions : List (String × ActualBudgetTransaction)
  pendingTransactionsByKey : List (String × ActualBudgetTransaction)
deriving Repr, DecidableEq

/-- `DuplicateTransactionDetector.isPendingImportedId`:
`importedId.startsWith('lf_pending_')`. -/
def isPendingImportedId (importedId : String) : Bool :=
  hasStrPrefix "lf_pending_" importedId

/-- `DuplicateTransactionDetector.extractSyntheticKey`: under the
`isPendingImportedId` guard, `replace('lf_pending_', '')` removes the first
occurrence of the pattern, which is exactly the 11-character prefix. -/
def extractSyntheticKey (pendingImportedId : String) : Option String :=
  if isPendingImportedId pendingImportedId then
    some ⟨pendingImportedId.data.drop "lf_pending_".data.length⟩
  else none

/-- One iteration of the loop in
`DuplicateTransactionDetector.buildTransactionMap`. -/
def buildStep (d : DuplicateTransactionDetector) (t : ActualBudgetTransaction) :
    DuplicateTransactionDetector :=
  match jsTruthy t.imported_id with
  | none => d
  | some iid =>
    let d1 : DuplicateTransactionDetector :=
      { d with existingTransactions := upsert iid t d.existingTransactions }
    if isPendingImportedId iid then
      match extractSyntheticKey iid with
      | some key => { d1 with pendingTransactionsByKey := upsert key t d1.pendingTransactionsByKey }
      | none => d1
    else d1

/-- `DuplicateTransactionDetector.buildTransactionMap`, run by the
constructor: both indexes are built in one pass over the snapshot. -/
def buildTransactionMap (transactions : List ActualBudgetTransaction) :
    DuplicateTransactionDetector :=
  transactions.foldl buildStep
    { existingTransactions := [], pendingTransactionsByKey := [] }

/-- `DuplicateInfo` as returned by `checkTransaction`. -/
structure DuplicateInfo where
  isDuplicate : Bool
  duplicateOf : Option String := none
  existingTransaction : Option ActualBudgetTransaction := none
  shouldReplace : Option Bool := none
deriving Repr, DecidableEq

/-- `DuplicateTransactionDetector.transactionsMatch`: key-attribute equality
on account, date, amount, and payee name. -/
def transactionsMatch (tx1 tx2 : ActualBudgetTransaction) : Bool :=
  tx1.account == tx2.account && tx1.date == tx2.date &&
    tx1.amount == tx2.amount && tx1.payee_name == tx2.payee_name

/-- `DuplicateTransactionDetector.findMatchingPendingTransaction`: in-order
scan of the pending index, first match wins. -/
def findMatchingPendingTransaction (d : DuplicateTransactionDetector)
    (posted : ActualBudgetTransaction) : Option ActualBudgetTransaction :=
  (d.pendingTransactionsByKey.find? fun p => transactionsMatch posted p.2).map Prod.snd

/-- `DuplicateTransactionDetector.checkTransaction`. -/
def checkTransaction (d : DuplicateTransactionDetector)
    (transaction : ActualBudgetTransaction) : DuplicateInfo :=
  match jsTruthy transaction.imported_id with
  | none => { isDuplicate := false }
  | some iid =>
    match mapGet d.existingTransactions iid with
    | some exactMatch =>
      { isDuplicate := true
        duplicateOf := exactMatch.id
        existingTransaction := some exactMatch
        shouldReplace := some false }
    | none =>
      if isPendingImportedId iid then { isDuplicate := false }
      else
        match findMatchingPendingTransaction d transaction with
        | some matchingPending =>
          { isDuplicate := true
            duplicateOf := matchingPending.id
            existingTransaction := some matchingPending
            shouldReplace := some true }
        | none => { isDuplicate := false }

/-- `DuplicateTransactionDetector.checkForDuplicates`: annotate every
candidate with the verdict fields. -/
def checkForDuplicates (d : DuplicateTransactionDetector)
    (newTransactions : List ActualBudgetTransaction) : List ActualBudgetTransaction :=
  newTransactions.map fun transaction =>
    let info := checkTransaction d transaction
    { transaction with
        isDuplicate := some info.isDuplicate
        duplicateOf := info.duplicateOf
        shouldReplace := info.shouldReplace }

/-- `getDuplicateCount`: JS truthiness of the optional `isDuplicate` flag. -/
def getDuplicateCount (transactions : List ActualBudgetTransaction) : Nat :=
  (transactions.filter fun t => t.isDuplicate == some true).length

/-- `getUniqueTransactions`. -/
def getUniqueTransactions (transactions : List ActualBudgetTransaction) :
    List ActualBudgetTransaction :=
  transactions.filter fun t => !(t.isDuplicate == some true)

/-- `getDuplicateTransactions`. -/
def getDuplicateTransactions (transactions : List ActualBudgetTransaction) :
    List ActualBudgetTransaction :=
  transactions.filter fun t => t.isDuplicate == some true

/-! Concrete fixtures used by witnesses and counterexamples. -/

/-- A mapping for Lunch Flow account `A1`. -/
def mA1 : AccountMapping :=
  { lunchFlowAccountId := "A1", actualBudgetAccountId := "A1" }

/-- A provisional feed transaction on account `A1` for 19.99 currency units
at Starbucks. -/
def lfPendingTx : LunchFlowTransaction :=
  { id := none, accountId := "A1", date := "2024-01-05", amount := 19.99,
    merchant := "Starbucks", description := "coffee", isPending := some true }

/-- The settled feed transaction with stable feed id `999`. -/
def lfSettledTx : LunchFlowTransaction :=
  { id := some "999", accountId := "A1", date := "2024-01-05", amount := 19.99,
    merchant := "Starbucks", description := "coffee", isPending := some false }

/-- A feed transaction on an account with no mapping entry. -/
def lfUnmappedTx : LunchFlowTransaction :=
  { id := some "77", accountId := "B2", date := "2024-02-02", amount := 5,
    merchant := "Cafe", description := "tea", isPending := some false }

/-- A provisional record as persisted in the ledger, carrying the synthetic
imported id the mapper generates. -/
def exPendingLedger : ActualBudgetTransaction :=
  { id := some "prov-1", date := "2024-01-05", amount := 1999,
    payee_name := some "Starbucks", account := "A1", cleared := false,
    notes := some "[PENDING] coffee",
    imported_id := some "lf_pending_A1_2024-01-05_1999_starbucks",
    isPending := some true }

/-- The same provisional record but with the imported-id spelling the spec
text uses (`pending_` with no `lf_`). -/
def exPendingSpecPrefix : ActualBudgetTransaction :=
  { exPendingLedger with
    imported_id := some "pending_A1_2024-01-05_1999_starbucks" }

/-- A settled candidate that should supersede `exPendingLedger`. -/
def candSettled : ActualBudgetTransaction :=
  { date := "2024-01-05", amount := 1999, payee_name := some "Starbucks",
    imported_payee := some "Starbucks", account := "A1", cleared := true,
    notes := some "coffee", imported_id := some "src_999",
    isPending := some false }

/-! Helper lemmas shared by several claims. -/

/-- The merchant slug is truncated to at most 20 characters. -/
theorem merchantSlug_length_le (m : String) : (merchantSlug m).length ≤ 20 := by
  have h : (merchantSlug m).length
      = (((m.data.map charToLower).filter isSlugChar).take 20).length := rfl
  rw [h, List.length_take]
  exact min_le_left _ _

/-- Every character of the merchant slug is a lower-case ASCII letter or a
digit. -/
theorem merchantSlug_all_slugChar (m : String) :
    (merchantSlug m).data.all isSlugChar = true := by
  rw [List.all_eq_true]
  intro c hc
  have hc2 : c ∈ (m.data.map charToLower).filter isSlugChar :=
    List.take_subset _ _ hc
  exact (List.mem_filter.mp hc2).2

/-- Evaluation of the rounding at 19.99 currency units. -/
theorem jsRound_19_99 : jsRound ((19.99 : ℚ) * 100) = 1999 := by
  have h : (19.99 : ℚ) * 100 + 1/2 = 3999/2 := by norm_num
  simp only [jsRound, h]
  rw [Int.floor_eq_iff]
  norm_num

/-- The synthetic id generated for the concrete pending fixture. -/
theorem synthId_concrete :
    generateSyntheticId lfPendingTx = "lf_pending_A1_2024-01-05_1999_starbucks" := by
  have h : jsRound (lfPendingTx.amount * 100) = 1999 := jsRound_19_99
  simp only [generateSyntheticId]
  rw [h]
  decide

/-! Claim theorems. -/

/-- C1 counterexample: the code's imported ids use the `lf_pending_` and
`lf_` prefixes, not the `pending_` and `src_` wire forms the claim fixes.
At the concrete pending fixture the mapper produces
`lf_pending_A1_2024-01-05_1999_starbucks`, which does not start with
`pending_`; at the concrete settled fixture it produces `lf_999`, which does
not start with `src_`. -/
theorem C1_counterexample :
    ((mapTransaction [mA1] lfPendingTx).map fun r => r.imported_id)
        = some (some "lf_pending_A1_2024-01-05_1999_starbucks") ∧
    hasStrPrefix "pending_" "lf_pending_A1_2024-01-05_1999_starbucks" = false ∧
    ((mapTransaction [mA1] lfSettledTx).map fun r => r.imported_id)
        = some (some "lf_999") ∧
    hasStrPrefix "src_" "lf_999" = false := by
  refine ⟨?_, by decide, by decide, by decide⟩
  simp only [mapTransaction, findMapping]
  rw [show (([mA1].find? fun m => m.lunchFlowAccountId == lfPendingTx.accountId)
      = some mA1) from by decide]
  simp only [Option.map_some]
  rw [show (lfPendingTx.isPending == some true) = true from by decide]
  simp only [if_pos rfl, if_true]
  rw [synthId_concrete]
  rfl

/-- C1 (amended): for every source transaction whose account has a mapping,
the mapper produces `imported_id` in the exact wire format of the code:
`"lf_pending_{accountId}_{date}_{amountMinorUnits}_{merchantSlug}"` for a
provisional transaction and `"lf_"` followed by the feed transaction id for a
settled one, where the merchant slug has at most 20 characters, all in
`[a-z0-9]`. -/
theorem C1_importedId_format (mappings : List AccountMapping)
    (t : LunchFlowTransaction) (m : AccountMapping)
    (hm : findMapping mappings t.accountId = some m) :
    ((mapTransaction mappings t).map fun r => r.imported_id)
        = some (some (if t.isPending == some true
            then "lf_pending_" ++ t.accountId ++ "_" ++ t.date ++ "_" ++
              toString (jsRound (t.amount * 100)) ++ "_" ++ merchantSlug t.merchant
            else "lf_" ++ jsInterp t.id)) ∧
    (merchantSlug t.merchant).length ≤ 20 ∧
    (merchantSlug t.merchant).data.all isSlugChar = true := by
  refine ⟨?_, merchantSlug_length_le _, merchantSlug_all_slugChar _⟩
  simp only [mapTransaction, hm, Option.map_some]
  rfl

/-- Witness for C1: the amended claim applied at the concrete pending
fixture, whose account mapping is present. -/
theorem C1_witness :
    ((mapTransaction [mA1] lfPendingTx).map fun r => r.imported_id)
        = some (some (if lfPendingTx.isPending == some true
            then "lf_pending_" ++ lfPendingTx.accountId ++ "_" ++ lfPendingTx.date ++ "_" ++
              toString (jsRound (lfPendingTx.amount * 100)) ++ "_" ++
              merchantSlug lfPendingTx.merchant
            else "lf_" ++ jsInterp lfPendingTx.id)) ∧
    (merchantSlug lfPendingTx.merchant).length ≤ 20 ∧
    (merchantSlug lfPendingTx.merchant).data.all isSlugChar = true :=
  C1_importedId_format [mA1] lfPendingTx mA1 (by decide)

/-- C3 counterexample: with the existing provisional record carrying the
spec-spelled imported id `pending_A1_2024-01-05_1999_starbucks` (as the claim
states it), the detector does not index it as pending (its prefix test is
`lf_pending_`), so the settled candidate `src_999` is classified New, not
Duplicate-with-replace. -/
theorem C3_counterexample :
    (checkTransaction (buildTransactionMap [exPendingSpecPrefix]) candSettled).isDuplicate
        = false ∧
    (checkTransaction (buildTransactionMap [exPendingSpecPrefix]) candSettled).shouldReplace
        ≠ some true := by
  decide

/-- C3 (amended): with the provisional record's imported id in the code's
wire form `lf_pending_A1_2024-01-05_1999_starbucks` (account A1, date
2024-01-05, amount 1999, payee Starbucks), classifying the settled candidate
(same account, date, amount, payee, imported id `src_999`) yields Duplicate
with `duplicateOf` the provisional record's id and `shouldReplace` true. -/
theorem C3_settlement_linkage :
    checkTransaction (buildTransactionMap [exPendingLedger]) candSettled =
      { isDuplicate := true, duplicateOf := some "prov-1",
        existingTransaction := some exPendingLedger,
        shouldReplace := some true } := by
  decide

/-- C2: classification follows the strict priority order of
`checkTransaction`, first matching rule wins: (1) a candidate with no
(truthy) imported id is New; (2) else an exact imported-id hit is Duplicate
with `shouldReplace` false regardless of content fields; (3) else, for a
candidate without the synthetic pending prefix, a pending-indexed record
agreeing exactly on account, date, amount and payee name is Duplicate with
`duplicateOf` that record's id and `shouldReplace` true; (4) otherwise New
(a pending-prefixed candidate with no exact hit is also New). -/
theorem C2_classification_priority (existing : List ActualBudgetTransaction)
    (c : ActualBudgetTransaction) :
    (jsTruthy c.imported_id = none →
      checkTransaction (buildTransactionMap existing) c = { isDuplicate := false }) ∧
    (∀ iid ex, jsTruthy c.imported_id = some iid →
      mapGet (buildTransactionMap existing).existingTransactions iid = some ex →
      checkTransaction (buildTransactionMap existing) c =
        { isDuplicate := true, duplicateOf := ex.id,
          existingTransaction := some ex, shouldReplace := some false }) ∧
    (∀ iid, jsTruthy c.imported_id = some iid →
      mapGet (buildTransactionMap existing).existingTransactions iid = none →
      isPendingImportedId iid = false →
      (∀ p, findMatchingPendingTransaction (buildTransactionMap existing) c = some p →
        checkTransaction (buildTransactionMap existing) c =
          { isDuplicate := true, duplicateOf := p.id,
            existingTransaction := some p, shouldReplace := some true }) ∧
      (findMatchingPendingTransaction (buildTransactionMap existing) c = none →
        checkTransaction (buildTransactionMap existing) c = { isDuplicate := false })) ∧
    (∀ iid, jsTruthy c.imported_id = some iid →
      mapGet (buildTransactionMap existing).existingTransactions iid = none →
      isPendingImportedId iid = true →
      checkTransaction (buildTransactionMap existing) c = { isDuplicate := false }) ∧
    ∀ p, findMatchingPendingTransaction (buildTransactionMap existing) c = some p →
      (∃ entry ∈ (buildTransactionMap existing).pendingTransactionsByKey, entry.2 = p) ∧
      c.account = p.account ∧ c.date = p.date ∧ c.amount = p.amount ∧
      c.payee_name = p.payee_name := by
  refine ⟨?_, ?_, ?_, ?_, ?_⟩
  · intro h
    simp [checkTransaction, h]
  · intro iid ex h1 h2
    simp [checkTransaction, h1, h2]
  · intro iid h1 h2 h3
    constructor
    · intro p hp
      simp [checkTransaction, h1, h2, h3, hp]
    · intro hp
      simp [checkTransaction, h1, h2, h3, hp]
  · intro iid h1 h2 h3
    simp [checkTransaction, h1, h2, h3]
  · intro p hp
    rw [findMatchingPendingTransaction] at hp
    rcases Option.map_eq_some'.mp hp with ⟨entry, hfind, hsnd⟩
    have hmem : entry ∈ (buildTransactionMap existing).pendingTransactionsByKey :=
      List.mem_of_find?_eq_some hfind
    have hmatch : transactionsMatch c entry.2 = true := by
      have h := List.find?_some hfind
      simpa using h
    rw [hsnd] at hmatch
    simp only [transactionsMatch, Bool.and_eq_true, beq_iff_eq] at hmatch
    exact ⟨⟨entry, hmem, hsnd⟩, hmatch.1.1.1, hmatch.1.1.2, hmatch.1.2, hmatch.2⟩

/-- Witness for C2: the settlement rule (3) fires at the concrete fixtures,
with all premises of that rule discharged by evaluation. -/
theorem C2_witness :
    checkTransaction (buildTransactionMap [exPendingLedger]) candSettled =
      { isDuplicate := true, duplicateOf := exPendingLedger.id,
        existingTransaction := some exPendingLedger, shouldReplace := some true } :=
  ((C2_classification_priority [exPendingLedger] candSettled).2.2.1 "src_999"
    (by decide) (by decide) (by decide)).1 exPendingLedger (by decide)

/-- C6: a source transaction whose account has no mapping entry is rejected
by `mapTransaction` (result `null`), with one observable warning naming the
account, and the batch operation drops exactly that record while mapping the
rest of the batch. -/
theorem C6_unmapped_account (mappings : List AccountMapping)
    (t : LunchFlowTransaction) (pre post : List LunchFlowTransaction)
    (hm : findMapping mappings t.accountId = none) :
    mapTransaction mappings t = none ∧
    (mapTransactionLogged mappings t).1 = none ∧
    (mapTransactionLogged mappings t).2
        = ["No mapping found for Lunch Flow account " ++ t.accountId] ∧
    mapTransactions mappings (pre ++ t :: post)
        = mapTransactions mappings pre ++ mapTransactions mappings post := by
  have h1 : mapTransaction mappings t = none := by simp [mapTransaction, hm]
  refine ⟨h1, ?_, ?_, ?_⟩
  · simp [mapTransactionLogged, hm]
  · simp [mapTransactionLogged, hm]
  · simp [mapTransactions, List.map_append, List.reduceOption_append, h1,
      List.reduceOption_cons_of_none]

/-- Witness for C6: the unmapped fixture is dropped from a concrete batch in
which it sits between two mappable records. -/
theorem C6_witness :
    mapTransaction [mA1] lfUnmappedTx = none ∧
    (mapTransactionLogged [mA1] lfUnmappedTx).1 = none ∧
    (mapTransactionLogged [mA1] lfUnmappedTx).2
        = ["No mapping found for Lunch Flow account " ++ lfUnmappedTx.accountId] ∧
    mapTransactions [mA1] ([lfSettledTx] ++ lfUnmappedTx :: [lfPendingTx])
        = mapTransactions [mA1] [lfSettledTx] ++ mapTransactions [mA1] [lfPendingTx] :=
  C6_unmapped_account [mA1] lfUnmappedTx [lfSettledTx] [lfPendingTx] (by decide)

/-- C7: the merchant slug is the lower-cased, `[^a-z0-9]`-stripped, 20-char
truncation of the merchant text; the two distinct merchants
`AmazonMarketplaceServicesFeesLLC` and `AmazonMarketplaceServicesExtraLLC`
collide on the slug `amazonmarketplaceser`. -/
theorem C7_slug_truncation_collision :
    merchantSlug "AmazonMarketplaceServicesFeesLLC"
        = merchantSlug "AmazonMarketplaceServicesExtraLLC" ∧
    merchantSlug "AmazonMarketplaceServicesFeesLLC" = "amazonmarketplaceser" ∧
    ("AmazonMarketplaceServicesFeesLLC" : String) ≠ "AmazonMarketplaceServicesExtraLLC" ∧
    (∀ m : String, (merchantSlug m).length ≤ 20) ∧
    ∀ m : String, (merchantSlug m).data.all isSlugChar = true :=
  ⟨by decide, by decide, by decide, merchantSlug_length_le, merchantSlug_all_slugChar⟩

/-- Re-classifying an annotated record gives the same verdict: the
annotation leaves every field `checkTransaction` reads unchanged. -/
theorem checkTransaction_annotate (d : DuplicateTransactionDetector)
    (t : ActualBudgetTransaction) (a : Bool) (b : Option String) (c : Option Bool) :
    checkTransaction d
        { t with isDuplicate := some a, duplicateOf := b, shouldReplace := c }
      = checkTransaction d t := rfl

/-- Running `checkForDuplicates` on its own output re-derives the very same
records. -/
theorem checkForDuplicates_idem (d : DuplicateTransactionDetector)
    (ts : List ActualBudgetTransaction) :
    checkForDuplicates d (checkForDuplicates d ts) = checkForDuplicates d ts := by
  induction ts with
  | nil => rfl
  | cons t ts ih =>
    show _ :: checkForDuplicates d (checkForDuplicates d ts)
        = _ :: checkForDuplicates d ts
    rw [ih]
    rfl

/-- C8: re-running `checkForDuplicates` on its own output against the same
snapshot yields records with identical verdict fields (`isDuplicate`,
`duplicateOf`, `shouldReplace`) to the first run. -/
theorem C8_classify_idempotent (existing candidates : List ActualBudgetTransaction) :
    ((checkForDuplicates (buildTransactionMap existing)
          (checkForDuplicates (buildTransactionMap existing) candidates)).map
        fun t => (t.isDuplicate, t.duplicateOf, t.shouldReplace))
      = (checkForDuplicates (buildTransactionMap existing) candidates).map
          fun t => (t.isDuplicate, t.duplicateOf, t.shouldReplace) := by
  rw [checkForDuplicates_idem]

/-- Field-wise agreement on everything except the three verdict fields. -/
def coreFieldsEq (a b : ActualBudgetTransaction) : Prop :=
  a.id = b.id ∧ a.date = b.date ∧ a.amount = b.amount ∧
  a.payee_name = b.payee_name ∧ a.imported_payee = b.imported_payee ∧
  a.account = b.account ∧ a.cleared = b.cleared ∧ a.notes = b.notes ∧
  a.imported_id = b.imported_id ∧ a.isPending = b.isPending

/-- C9: `checkForDuplicates` only attaches `isDuplicate`, `duplicateOf` and
`shouldReplace`: the output is in one-to-one correspondence with the
candidate batch and agrees with it on every other field (the snapshot and
the detector's indexes are read-only values in this embedding). -/
theorem C9_frame (existing candidates : List ActualBudgetTransaction) :
    List.Forall₂ coreFieldsEq candidates
        (checkForDuplicates (buildTransactionMap existing) candidates) ∧
    (checkForDuplicates (buildTransactionMap existing) candidates).length
        = candidates.length := by
  constructor
  · induction candidates with
    | nil => exact List.Forall₂.nil
    | cons t ts ih =>
      exact List.Forall₂.cons
        ⟨rfl, rfl, rfl, rfl, rfl, rfl, rfl, rfl, rfl, rfl⟩ ih
  · simp [checkForDuplicates]

/-- Membership after a JS-`Map.set` style update: the element is either the
new entry or was already present. -/
theorem mem_upsert (k : String) (v : ActualBudgetTransaction)
    (l : List (String × ActualBudgetTransaction))
    (p : String × ActualBudgetTransaction) (hp : p ∈ upsert k v l) :
    p = (k, v) ∨ p ∈ l := by
  induction l with
  | nil => simpa [upsert] using hp
  | cons q l ih =>
    simp only [upsert] at hp
    by_cases hq : (q.1 == k) = true
    · rw [if_pos hq] at hp
      rcases List.mem_cons.mp hp with h | h
      · exact Or.inl h
      · exact Or.inr (List.mem_cons_of_mem _ h)
    · rw [if_neg hq] at hp
      rcases List.mem_cons.mp hp with h | h
      · exact Or.inr (h ▸ List.mem_cons_self _ _)
      · rcases ih h with h2 | h2
        · exact Or.inl h2
        · exact Or.inr (List.mem_cons_of_mem _ h2)

/-- A truthy imported id is the stored imported id (and is non-empty). -/
theorem jsTruthy_eq_some {o : Option String} {s : String}
    (h : jsTruthy o = some s) : o = some s ∧ s ≠ "" := by
  cases o with
  | none => simp [jsTruthy] at h
  | some v =>
    by_cases hv : v = ""
    · simp [jsTruthy, hv] at h
    · simp only [jsTruthy, if_neg hv, Option.some.injEq] at h
      exact ⟨by rw [h], h ▸ hv⟩

/-- Soundness property of an entry of the pending index: its value is a
snapshot record whose (truthy) imported id has the synthetic pending form. -/
def pendingEntryOk (source : List ActualBudgetTransaction)
    (p : String × ActualBudgetTransaction) : Prop :=
  p.2 ∈ source ∧
  ∃ iid, jsTruthy p.2.imported_id = some iid ∧ isPendingImportedId iid = true

/-- One build step preserves soundness of the pending index. -/
theorem buildStep_pending_inv (source : List ActualBudgetTransaction)
    (d : DuplicateTransactionDetector) (t : ActualBudgetTransaction)
    (ht : t ∈ source)
    (hd : ∀ p ∈ d.pendingTransactionsByKey, pendingEntryOk source p) :
    ∀ p ∈ (buildStep d t).pendingTransactionsByKey, pendingEntryOk source p := by
  intro p hp
  cases hjt : jsTruthy t.imported_id with
  | none =>
    rw [buildStep] at hp
    rw [hjt] at hp
    exact hd p hp
  | some iid =>
    cases hpend : isPendingImportedId iid with
    | true =>
      have hp2 : p ∈ upsert (⟨iid.data.drop "lf_pending_".data.length⟩ : String) t
          d.pendingTransactionsByKey := by
        simpa [buildStep, hjt, extractSyntheticKey, hpend] using hp
      rcases mem_upsert _ _ _ p hp2 with h | h
      · exact ⟨h ▸ ht, iid, h ▸ hjt, hpend⟩
      · exact hd p h
    | false =>
      have hp2 : p ∈ d.pendingTransactionsByKey := by
        simpa [buildStep, hjt, extractSyntheticKey, hpend] using hp
      exact hd p hp2

/-- The pending index built from a snapshot only holds snapshot records with
synthetic pending imported ids. -/
theorem foldl_pending_inv (source : List ActualBudgetTransaction) :
    ∀ (ts : List ActualBudgetTransaction), (∀ t ∈ ts, t ∈ source) →
    ∀ (d : DuplicateTransactionDetector),
      (∀ p ∈ d.pendingTransactionsByKey, pendingEntryOk source p) →
    ∀ p ∈ (ts.foldl buildStep d).pendingTransactionsByKey, pendingEntryOk source p := by
  intro ts
  induction ts with
  | nil => intro _ d hd; exact hd
  | cons t ts ih =>
    intro hts d hd
    exact ih (fun u hu => hts u (List.mem_cons_of_mem _ hu))
      (buildStep d t)
      (buildStep_pending_inv source d t (hts t (List.mem_cons_self _ _)) hd)

/-- The pending index of the detector built from a snapshot is sound. -/
theorem buildTransactionMap_pending_inv (existing : List ActualBudgetTransaction) :
    ∀ p ∈ (buildTransactionMap existing).pendingTransactionsByKey,
      pendingEntryOk existing p :=
  foldl_pending_inv existing existing (fun _ h => h)
    { existingTransactions := [], pendingTransactionsByKey := [] }
    (by intro p hp; simp at hp)

/-- A replace verdict can only come out of the settlement rule: the
candidate's imported id is truthy and not pending-prefixed, and the matched
record is a value of the pending index. -/
theorem checkTransaction_replace (d : DuplicateTransactionDetector)
    (c : ActualBudgetTransaction)
    (hrep : (checkTransaction d c).shouldReplace = some true) :
    ∃ iid p entry,
      jsTruthy c.imported_id = some iid ∧ isPendingImportedId iid = false ∧
      entry ∈ d.pendingTransactionsByKey ∧ entry.2 = p ∧
      checkTransaction d c =
        { isDuplicate := true, duplicateOf := p.id,
          existingTransaction := some p, shouldReplace := some true } := by
  cases hjt : jsTruthy c.imported_id with
  | none => simp [checkTransaction, hjt] at hrep
  | some iid =>
    cases hget : mapGet d.existingTransactions iid with
    | some ex => simp [checkTransaction, hjt, hget] at hrep
    | none =>
      cases hpend : isPendingImportedId iid with
      | true => simp [checkTransaction, hjt, hget, hpend] at hrep
      | false =>
        cases hfind : findMatchingPendingTransaction d c with
        | none => simp [checkTransaction, hjt, hget, hpend, hfind] at hrep
        | some p =>
          rcases Option.map_eq_some'.mp hfind with ⟨entry, hfe, hsnd⟩
          exact ⟨iid, p, entry, rfl, hpend, List.mem_of_find?_eq_some hfe, hsnd,
            by simp [checkTransaction, hjt, hget, hpend, hfind]⟩

/-- C10: in every record output by `checkForDuplicates` over a snapshot
whose records carry ledger ids, `shouldReplace = some true` implies
`isDuplicate = some true` and a defined `duplicateOf`; the replace directive
targets a snapshot record whose imported id has the synthetic `lf_pending_`
prefix, while the candidate's own imported id does not have that prefix. -/
theorem C10_replace_invariant (existing candidates : List ActualBudgetTransaction)
    (r : ActualBudgetTransaction)
    (hmem : r ∈ checkForDuplicates (buildTransactionMap existing) candidates)
    (hids : ∀ e ∈ existing, e.id.isSome = true)
    (hrep : r.shouldReplace = some true) :
    r.isDuplicate = some true ∧
    r.duplicateOf.isSome = true ∧
    (∃ e ∈ existing, r.duplicateOf = e.id ∧
      ∃ iid, e.imported_id = some iid ∧ isPendingImportedId iid = true) ∧
    ∃ cid, r.imported_id = some cid ∧ isPendingImportedId cid = false := by
  simp only [checkForDuplicates, List.mem_map] at hmem
  rcases hmem with ⟨c, hc, hr⟩
  have hrep2 : (checkTransaction (buildTransactionMap existing) c).shouldReplace
      = some true := by
    rw [← hr] at hrep
    exact hrep
  rcases checkTransaction_replace _ _ hrep2 with
    ⟨iid, p, entry, hjt, hpend, hentry, hsnd, heq⟩
  rcases buildTransactionMap_pending_inv existing entry hentry with
    ⟨hpmem, iid2, hjt2, hpend2⟩
  have hpmem2 : p ∈ existing := hsnd ▸ hpmem
  have hjt3 : jsTruthy p.imported_id = some iid2 := hsnd ▸ hjt2
  refine ⟨?_, ?_, ?_, ?_⟩
  · rw [← hr]
    show some (checkTransaction (buildTransactionMap existing) c).isDuplicate = some true
    rw [heq]
  · rw [← hr]
    show ((checkTransaction (buildTransactionMap existing) c).duplicateOf).isSome = true
    rw [heq]
    simpa using hids p hpmem2
  · refine ⟨p, hpmem2, ?_, iid2, (jsTruthy_eq_some hjt3).1, hpend2⟩
    rw [← hr]
    show (checkTransaction (buildTransactionMap existing) c).duplicateOf = p.id
    rw [heq]
  · refine ⟨iid, ?_, hpend⟩
    rw [← hr]
    show c.imported_id = some iid
    exact (jsTruthy_eq_some hjt).1

/-- The record the classifier outputs for the concrete settled candidate. -/
def rDuplicate : ActualBudgetTransaction :=
  { candSettled with
    isDuplicate := some true
    duplicateOf := some "prov-1"
    shouldReplace := some true }

/-- Witness for C10: the invariant applied to the concrete settlement
scenario, with all hypotheses discharged by evaluation. -/
theorem C10_witness :
    rDuplicate.isDuplicate = some true ∧
    rDuplicate.duplicateOf.isSome = true ∧
    (∃ e ∈ [exPendingLedger], rDuplicate.duplicateOf = e.id ∧
      ∃ iid, e.imported_id = some iid ∧ isPendingImportedId iid = true) ∧
    ∃ cid, rDuplicate.imported_id = some cid ∧ isPendingImportedId cid = false :=
  C10_replace_invariant [exPendingLedger] [candSettled] rDuplicate
    (by decide) (by decide) (by decide)

/-! Legacy compatibility mode.  The legacy matching tier is described in the
spec (present in an earlier revision of the repository) but its code is not
under `src/`; the definitions below are therefore modelled from the spec's
words and the claim about them is settled against this model. -/

/-- Substring test on character lists (JS `String.prototype.includes`). -/
def containsSub (pat : List Char) : List Char → Bool
  | [] => pat.isEmpty
  | c :: rest => pat.isPrefixOf (c :: rest) || containsSub pat rest

/-- Removal of the first occurrence of a pattern from a character list
(JS `String.prototype.replace` with a string pattern). -/
def removeFirstSub (pat : List Char) : List Char → List Char
  | [] => []
  | c :: rest =>
    if pat.isPrefixOf (c :: rest) then (c :: rest).drop pat.length
    else c :: removeFirstSub pat rest

/-- The literal pending marker the mapper writes in front of the notes. -/
def pendingMarker : String := "[PENDING] "

/-- Modelled from the spec: a record "carries the `[PENDING] ` marker" when
its notes or payee text contain the marker (the legacy matching tier's code
is not under `src/`). -/
def carriesPendingMarker (t : ActualBudgetTransaction) : Bool :=
  containsSub pendingMarker.data (t.notes.getD "").data ||
    containsSub pendingMarker.data (t.payee_name.getD "").data

/-- Modelled from the spec: stripping the `[PENDING] ` marker from a payee
text (the legacy matching tier's code is not under `src/`). -/
def stripPendingMarker (s : String) : String :=
  ⟨removeFirstSub pendingMarker.data s.data⟩

/-- Modelled from the spec: the legacy disambiguation applied to an existing
record and a candidate that already agree on date and amount — (a) marker on
the existing side only and marker-stripped payee equality (or a missing payee
on either side), else (b) equal payee text on both sides, else (c) a missing
payee on either side.  The legacy matching tier's code is not under `src/`. -/
def legacyDisambiguation (e c : ActualBudgetTransaction) : Bool :=
  (carriesPendingMarker e && !carriesPendingMarker c &&
    (match e.payee_name, c.payee_name with
     | some pe, some pc => stripPendingMarker pe == pc
     | _, _ => true)) ||
  (match e.payee_name, c.payee_name with
   | some pe, some pc => pe == pc
   | _, _ => false) ||
  (e.payee_name == none || c.payee_name == none)

/-- Modelled from the spec: one comparison of the legacy linear scan —
`date == date && amount == amount` plus the disambiguation. -/
def legacyMatch (e c : ActualBudgetTransaction) : Bool :=
  e.date == c.date && e.amount == c.amount && legacyDisambiguation e c

/-- Modelled from the spec: the legacy fallback's linear scan over all
existing records, first match wins. -/
def legacyFallbackScan (existing : List ActualBudgetTransaction)
    (c : ActualBudgetTransaction) : Option ActualBudgetTransaction :=
  existing.find? fun e => legacyMatch e c

/-- C4 (spec-modelled): the legacy fallback is a linear scan over all
existing records; a record is matched exactly when it agrees with the
candidate on date and amount and one of the three disambiguation rules
holds: (a) the existing record carries the `[PENDING] ` marker, the
candidate does not, and stripping the marker yields equal payee text (or
either side has no payee); (b) both sides have equal payee text; (c) either
side lacks a payee. -/
theorem C4_legacy_fallback (existing : List ActualBudgetTransaction)
    (e c : ActualBudgetTransaction) :
    (legacyMatch e c = true ↔
      (e.date = c.date ∧ e.amount = c.amount ∧
        ((carriesPendingMarker e = true ∧ carriesPendingMarker c = false ∧
            ∀ pe pc, e.payee_name = some pe → c.payee_name = some pc →
              stripPendingMarker pe = pc) ∨
          (∃ pe pc, e.payee_name = some pe ∧ c.payee_name = some pc ∧ pe = pc) ∨
          e.payee_name = none ∨ c.payee_name = none))) ∧
    (∀ e2, legacyFallbackScan existing c = some e2 →
      e2 ∈ existing ∧ legacyMatch e2 c = true) ∧
    (legacyFallbackScan existing c = none →
      ∀ e3 ∈ existing, legacyMatch e3 c = false) := by
  refine ⟨?_, ?_, ?_⟩
  · rw [legacyMatch, legacyDisambiguation]
    cases hpe : e.payee_name with
    | none =>
      cases hpc : c.payee_name with
      | none => simp [hpe, hpc]
      | some pc => simp [hpe, hpc]
    | some pe =>
      cases hpc : c.payee_name with
      | none => simp [hpe, hpc]
      | some pc =>
        cases hcm : carriesPendingMarker e with
        | false => simp [hpe, hpc, hcm, and_assoc]
        | true =>
          cases hcc : carriesPendingMarker c with
          | false => simp [hpe, hpc, hcm, hcc, and_assoc]
          | true => simp [hpe, hpc, hcm, hcc, and_assoc]
  · intro e2 h2
    refine ⟨List.mem_of_find?_eq_some h2, ?_⟩
    have h := List.find?_some h2
    simpa using h
  · intro hnone e3 h3
    have h := List.find?_eq_none.mp hnone e3 h3
    simpa using h

/-- A legacy-format provisional ledger row: no synthetic imported id, the
marker sits in both notes and payee text. -/
def exLegacyPending : ActualBudgetTransaction :=
  { id := some "leg-1"
    date := "2024-03-03"
    amount := 450
    payee_name := some "[PENDING] Cafe"
    account := "A1"
    cleared := false
    notes := some "[PENDING] snack"
    imported_id := some "old-row-1" }

/-- The settled candidate matching `exLegacyPending` under legacy rule (a). -/
def candLegacySettled : ActualBudgetTransaction :=
  { date := "2024-03-03"
    amount := 450
    payee_name := some "Cafe"
    account := "A1"
    imported_id := some "lf_888" }

/-- Witness for C4: the legacy scan finds the legacy provisional row for the
concrete settled candidate, by marker rule (a). -/
theorem C4_witness :
    exLegacyPending ∈ [exLegacyPending] ∧
    legacyMatch exLegacyPending candLegacySettled = true :=
  (C4_legacy_fallback [exLegacyPending] exLegacyPending candLegacySettled).2.1
    exLegacyPending (by decide)

end ActualFlow
